import Mathlib

/-!
Shallow embedding of the `api-server` query and ranking pipeline of the
chatgpt-hn-plugin repository (source files `utils.py` and `models.py`),
together with theorems settling the specification claims about it.

Conventions of the embedding:
* Python numbers are modelled as `ℤ` (ints) and `ℚ` (floats; the float
  values appearing in the claims are small exact decimals and the ranking
  comparisons they feed are far from any rounding boundary).
* Python runtime errors (`ValueError` from unpacking `zip(*[])`,
  `ZeroDivisionError` from min-max normalization of a constant vector,
  `TypeError` from unpacking a missing database row) are modelled by
  `Option`: a crashing run is `none`.
* SQL rows are modelled as lists of records; `fetchone` is `List.find?`,
  SQLAlchemy's `Item.type == item_type` keeps its `IS NULL` semantics for
  a `None` argument, which is `Option` equality here.
* Python's stable `sorted(_, reverse=True)` on `(score, id)` tuples is a
  sort by the reverse lexicographic order; that order is total and
  antisymmetric, so any sorted permutation is unique and we may use
  `List.insertionSort` for it.
-/

namespace HNPlugin

/-- Item kinds, from `ItemType` in `models.py`. -/
inductive ItemType
  | comment
  | job
  | story
  | poll
  | pollopt
  deriving DecidableEq

/-- Sort keys, from `SortBy` in `models.py`. -/
inductive SortBy
  | score
  | time
  deriving DecidableEq

/-- Sort directions, from the `Order` enum in `models.py` (called `SortOrder`
in `utils.py`). -/
inductive SortOrder
  | asc
  | desc
  deriving DecidableEq

/-- A row of the `items` table.  Fields follow the `Item` model in
`models.py`; all columns other than the primary key are nullable.
`descendants` is referenced by `get_items` via the `schema` module, which is
not among the source files; it is Modelled from the spec: §3 describes it as
an optional integer comment count.  The author column `by` is a Lean keyword,
so the field is named `by_`. -/
structure Item where
  id : ℤ
  time : Option ℤ
  title : Option String
  url : Option String
  text : Option String
  score : Option ℤ
  type : Option ItemType
  by_ : Option String
  descendants : Option ℤ
  deriving DecidableEq

instance : Inhabited Item :=
  ⟨⟨0, none, none, none, none, none, none, none, none⟩⟩

/-- A row of the `kids` association table (`models.py`): parent item id,
child item id, and the explicit sibling ordering. -/
structure KidEntry where
  item : ℤ
  kid : ℤ
  display_order : ℤ
  deriving DecidableEq

/-- The read-only store the pipeline queries. -/
structure DB where
  items : List Item
  kids : List KidEntry
  deriving DecidableEq

/-! ## `get_items` (utils.py lines 63-107) -/

/-- Constant `MAX_NUM` in `utils.py`. -/
def MAX_NUM : ℤ := 50

/-- Constant `DEFAULT_NUM` in `utils.py`; also the default of the `limit` parameter
of `get_items`. -/
def DEFAULT_NUM : ℤ := 10

/-- The clamp at the top of `get_items`: `if limit > MAX_NUM: limit = MAX_NUM`. -/
def clampLimit (limit : ℤ) : ℤ :=
  if limit > MAX_NUM then MAX_NUM else limit

/-- The optional filter parameters of `get_items`, one field per keyword
argument of the Python function (`skip` and `limit` stay separate
arguments). -/
structure ListingFilter where
  item_type : Option ItemType
  by_ : Option String
  before_time : Option ℤ
  after_time : Option ℤ
  min_score : Option ℤ
  max_score : Option ℤ
  min_comments : Option ℤ
  max_comments : Option ℤ
  sort_by : Option SortBy
  sort_order : Option SortOrder
  query : Option String
  deriving DecidableEq

/-- The filter with every field absent. -/
def noFilter : ListingFilter :=
  ⟨none, none, none, none, none, none, none, none, none, none, none⟩

/-- Case-sensitive substring test, modelling SQL `LIKE '%q%'` produced by
`Column.contains`. -/
def strContains (hay needle : String) : Bool :=
  decide (List.IsInfix needle.data hay.data)

/-- The conjunction of the `WHERE` clauses built by `get_items`
(utils.py lines 72-94).  Note the type clause is applied unconditionally:
SQLAlchemy turns `Item.type == None` into `type IS NULL`, which is plain
`Option` equality here.  Every other clause is added only when its
parameter is present, and a SQL comparison against a NULL column is not
satisfied. -/
def passesFilters (p : ListingFilter) (i : Item) : Bool :=
  (i.type == p.item_type)
  && (match p.by_ with
      | none => true
      | some b => i.by_ == some b)
  && (match p.before_time with
      | none => true
      | some t => match i.time with
        | some ti => decide (ti ≤ t)
        | none => false)
  && (match p.after_time with
      | none => true
      | some t => match i.time with
        | some ti => decide (t ≤ ti)
        | none => false)
  && (match p.min_score with
      | none => true
      | some s => match i.score with
        | some sc => decide (s ≤ sc)
        | none => false)
  && (match p.max_score with
      | none => true
      | some s => match i.score with
        | some sc => decide (sc ≤ s)
        | none => false)
  && (match p.min_comments with
      | none => true
      | some c => match i.descendants with
        | some d => decide (c ≤ d)
        | none => false)
  && (match p.max_comments with
      | none => true
      | some c => match i.descendants with
        | some d => decide (d ≤ c)
        | none => false)
  && (match p.query with
      | none => true
      | some q =>
        (match i.title with
         | some t => strContains t q
         | none => false)
        || (match i.text with
            | some t => strContains t q
            | none => false))

/-- The sort column selected by `getattr(Item, sort_by.value)`. -/
def sortKey (sb : SortBy) (i : Item) : Option ℤ :=
  match sb with
  | .score => i.score
  | .time => i.time

/-- The `ORDER BY` comparison on a nullable integer column; SQLite treats NULL
as smaller than every value. -/
def nullsFirstLe (a b : Option ℤ) : Bool :=
  match a, b with
  | none, _ => true
  | some _, none => false
  | some x, some y => decide (x ≤ y)

/-- The sorting step of `get_items` (utils.py lines 97-102): no `ORDER BY`
is emitted unless both `sort_by` and a recognised `sort_order` are given. -/
def sortItems (sort_by : Option SortBy) (sort_order : Option SortOrder)
    (l : List Item) : List Item :=
  match sort_by with
  | none => l
  | some sb =>
    match sort_order with
    | some .asc => l.insertionSort fun i j => nullsFirstLe (sortKey sb i) (sortKey sb j) = true
    | some .desc => l.insertionSort fun i j => nullsFirstLe (sortKey sb j) (sortKey sb i) = true
    | none => l

/-- The query `items_query` as it stands after filtering and sorting, before
`offset`/`limit` are attached: the skip-free, limit-free ordering of the
query. -/
def items_query (db : DB) (p : ListingFilter) : List Item :=
  sortItems p.sort_by p.sort_order (db.items.filter (passesFilters p))

/-- Function `get_items` (utils.py lines 63-107): clamp the limit, filter, sort, then
`offset(skip).limit(limit)`. -/
def get_items (db : DB) (p : ListingFilter) (skip : ℕ) (limit : ℤ) : List Item :=
  (((items_query db p).drop skip).take (clampLimit limit).toNat)

/-- A call of `get_items` that leaves `limit` unspecified uses the Python
default argument `limit = 10`. -/
def get_items_nolimit (db : DB) (p : ListingFilter) (skip : ℕ) : List Item :=
  get_items db p skip DEFAULT_NUM

/-! ## `normalize` (utils.py lines 143-150) -/

/-- Function `normalize` (utils.py lines 143-150).  `min`/`max` of an empty sequence
raise `ValueError`, and a constant vector makes
`(value - min_val) / (max_val - min_val)` raise `ZeroDivisionError`; both
crashes are `none`.  `List.min?`/`List.max?` fold binary `min`/`max`
exactly as Python's builtins do. -/
def normalize (values : List ℚ) (reverse : Bool) : Option (List ℚ) :=
  match values.min?, values.max? with
  | some min_val, some max_val =>
    if max_val = min_val then none
    else
      let normalized_values := values.map fun value => (value - min_val) / (max_val - min_val)
      some (if reverse then normalized_values.map (fun value => 1 - value) else normalized_values)
  | _, _ => none

/-! ## `compute_rankings` (utils.py lines 153-186) -/

/-- Python's `str.split()`: split on runs of whitespace, no empty words.
Operates on the character list so that everything stays structurally
recursive. -/
def splitWsAux (cur : List Char) (acc : List (List Char)) : List Char → List (List Char)
  | [] => if cur = [] then acc.reverse else (cur.reverse :: acc).reverse
  | c :: cs =>
    if c.isWhitespace then
      if cur = [] then splitWsAux [] acc cs else splitWsAux [] (cur.reverse :: acc) cs
    else splitWsAux (c :: cur) acc cs

/-- Python `set(word.lower() for word in s.split())`: the word set is the deduped
list of lower-cased whitespace-separated words. -/
def pyWordSet (s : String) : List (List Char) :=
  ((splitWsAux [] [] s.data).map (fun w => w.map Char.toLower)).dedup

/-- The overlap count `len(query_words.intersection(title_words))` from utils.py lines 176-178
(the local variable is called `matches` there, a reserved word in Lean). -/
def matchCount (query title : String) : ℕ :=
  ((pyWordSet query).filter fun w => decide (w ∈ pyWordSet title)).length

/-- One entry of the `expanded` list built in utils.py lines 154-164:
`(story_id, distance, title, score, age)` with the `None` defaults already
applied (`score = 1`, `age = 0`) and the title known to be present. -/
structure Expanded where
  sid : ℤ
  distance : ℚ
  title : String
  score : ℤ
  age : ℤ
  deriving DecidableEq

instance : Inhabited Expanded := ⟨⟨0, 0, "", 0, 0⟩⟩

/-- The lookup `SELECT title, score, time FROM items WHERE id = story_id` followed by
`fetchone()`: the projected first matching row, or `none` when the id has no
row. -/
def fetchTSA (db : DB) (sid : ℤ) : Option (Option String × Option ℤ × Option ℤ) :=
  (db.items.find? fun i => i.id == sid).map fun i => (i.title, i.score, i.time)

/-- The enrichment loop of `compute_rankings` (utils.py lines 154-164).
Unpacking `cursor.fetchone()` for an id with no row raises `TypeError`
(`none` here); a row whose `title` is NULL is skipped (`continue`); missing
`score` defaults to `1` and missing `time` to `0`. -/
def expandResults (db : DB) : List (ℤ × ℚ) → Option (List Expanded)
  | [] => some []
  | (story_id, distance) :: rest => do
    let (title, score, age) ← fetchTSA db story_id
    let tail ← expandResults db rest
    match title with
    | none => pure tail
    | some t => pure (⟨story_id, distance, t, score.getD 1, age.getD 0⟩ :: tail)

/-- The fusion loop of utils.py lines 172-184: weights `0.4, 0.4, 0.1, 0.1`
applied to the (already reversed) normalized signal vectors, and the raw
keyword-overlap count, producing `(score_rank, story_id)` pairs in candidate
order. -/
def fusedRankings (query : String) (expanded : List Expanded)
    (normalized_scores normalized_distances normalized_ages : List ℚ) : List (ℚ × ℤ) :=
  expanded.enum.map fun p =>
    (0.4 * normalized_scores.getD p.1 0
      + 0.4 * normalized_distances.getD p.1 0
      + 0.1 * normalized_ages.getD p.1 0
      + 0.1 * (matchCount query p.2.title : ℚ),
     p.2.sid)

/-- The order realised by `sorted(rankings, reverse=True)` on
`(score_rank, story_id)` tuples: descending lexicographic comparison. -/
def rankGe (a b : ℚ × ℤ) : Prop :=
  b.1 < a.1 ∨ (a.1 = b.1 ∧ b.2 ≤ a.2)

instance : DecidableRel rankGe := fun a b => by
  unfold rankGe
  infer_instance

instance : IsTotal (ℚ × ℤ) rankGe := ⟨by
  intro a b
  rcases lt_trichotomy a.1 b.1 with h | h | h
  · exact Or.inr (Or.inl h)
  · rcases le_total a.2 b.2 with h2 | h2
    · exact Or.inr (Or.inr ⟨h.symm, h2⟩)
    · exact Or.inl (Or.inr ⟨h, h2⟩)
  · exact Or.inl (Or.inl h)⟩

instance : IsTrans (ℚ × ℤ) rankGe := ⟨by
  intro a b c hab hbc
  rcases hab with h | ⟨he, hi⟩ <;> rcases hbc with h2 | ⟨he2, hi2⟩
  · exact Or.inl (h2.trans h)
  · exact Or.inl (he2 ▸ h)
  · exact Or.inl (he ▸ h2)
  · exact Or.inr ⟨he.trans he2, hi2.trans hi⟩⟩

/-- Function `compute_rankings` (utils.py lines 153-186): enrich the candidates,
normalize the three signal vectors (distance reversed), fuse with the fixed
weights plus the raw overlap count, and return the tuples sorted in
descending order.  Any of the Python crash modes yields `none`. -/
def compute_rankings (db : DB) (query : String) (results : List (ℤ × ℚ)) :
    Option (List (ℚ × ℤ)) := do
  let expanded ← expandResults db results
  let normalized_scores ← normalize (expanded.map fun e => (e.score : ℚ)) false
  let normalized_ages ← normalize (expanded.map fun e => (e.age : ℚ)) false
  let normalized_distances ← normalize (expanded.map fun e => e.distance) true
  pure (List.insertionSort rankGe
    (fusedRankings query expanded normalized_scores normalized_distances normalized_ages))

/-! ## `get_comments_text` (utils.py lines 190-213) -/

/-- The comment-children query of `get_comments_text`:
`SELECT i.* FROM items i JOIN kids k ON i.id = k.kid WHERE k.item = pid
AND i.type = 'comment' ORDER BY k.display_order LIMIT lim`. -/
def kidsOf (db : DB) (pid : ℤ) (lim : ℕ) : List Item :=
  (((db.kids.filter fun k => k.item == pid).insertionSort
      (fun a b => a.display_order ≤ b.display_order)).flatMap
    fun k => db.items.filter fun i => i.id == k.kid && i.type == some ItemType.comment).take lim

/-- One iteration of the loop in `get_comments_text` (utils.py lines
200-212): append the comment text when non-empty, then the text of the
comment's first child comment when that exists and is non-empty.  Python
truthiness of `comment.text` fails on both `None` and `""`. -/
def commentStep (db : DB) (comment_text : List String) (comment : Item) : List String :=
  match comment.text with
  | none => comment_text
  | some t =>
    if t = "" then comment_text
    else
      match (kidsOf db comment.id 1).head? with
      | none => comment_text ++ [t]
      | some child =>
        match child.text with
        | none => comment_text ++ [t]
        | some ct =>
          if ct = "" then comment_text ++ [t] else comment_text ++ [t] ++ [ct]

/-- Function `get_comments_text` (utils.py lines 190-213): loop over the top 10
comments of the story, accumulating fragments with `commentStep`. -/
def get_comments_text (db : DB) (story_id : ℤ) : List String :=
  (kidsOf db story_id 10).foldl (commentStep db) []

/-- The fragments contributed by one top-level comment: its own non-empty
text, then the non-empty text of its first child comment. -/
def commentFrag (db : DB) (comment : Item) : List String :=
  match comment.text with
  | none => []
  | some t =>
    if t = "" then []
    else
      match (kidsOf db comment.id 1).head? with
      | none => [t]
      | some child =>
        match child.text with
        | none => [t]
        | some ct => if ct = "" then [t] else [t, ct]

/-! ## `semantic_search` (utils.py lines 110-140) -/

/-- A search result: the full item row, plus the attached comment preview
when comments are not excluded. -/
structure Story where
  item : Item
  comment_text : Option (List String)
  deriving DecidableEq

/-- The enrichment loop of `semantic_search` (utils.py lines 127-139): for
each ranked `(score, story_id)` pair, fetch the full row by id; `if
story_row:` keeps only ids that still have a row, so a miss is skipped
silently; comments are attached unless excluded. -/
def fetch_stories (db : DB) (exclude_comments : Bool) (results : List (ℚ × ℤ)) : List Story :=
  results.filterMap fun r =>
    (db.items.find? fun i => i.id == r.2).map fun story_row =>
      ⟨story_row, if exclude_comments then none else some (get_comments_text db r.2)⟩

/-- Function `semantic_search` (utils.py lines 110-140) with the HTTP call to the
similarity provider abstracted into the `providerResults` argument: strip
the query, rank all candidates, truncate to `limit`, then fetch and enrich
the surviving stories.  A crash in ranking propagates. -/
def semantic_search (db : DB) (query : String) (limit : ℕ) (exclude_comments : Bool)
    (providerResults : List (ℤ × ℚ)) : Option (List Story) := do
  let q := query.trim
  let ranked ← compute_rankings db q providerResults
  pure (fetch_stories db exclude_comments (ranked.take limit))

/-! ## Concrete stores used in evaluations and witnesses -/

/-- A store holding one `story` item and one item whose kind column is NULL. -/
def kindDB : DB :=
  ⟨[⟨1, none, none, none, none, none, some ItemType.story, none, none⟩,
    ⟨2, none, none, none, none, none, none, none, none⟩], []⟩

/-- A store whose only item has a NULL title, so that the ranking survivor
set is empty. -/
def titlelessDB : DB :=
  ⟨[⟨1, none, none, none, none, none, none, none, none⟩], []⟩

/-- A store with 51 items that all pass the empty filter (their kind column
is NULL), enough to exercise the limit clamp. -/
def manyDB : DB :=
  ⟨(List.range 51).map fun n => ⟨(n : ℤ), none, none, none, none, none, none, none, none⟩, []⟩

/-- A small two-item store for ranking witnesses: distinct scores, ages and
distances, and an empty query so no keyword overlaps. -/
def wDB : DB :=
  ⟨[⟨1, some 30, some "a", none, none, some 3, none, none, none⟩,
    ⟨2, some 10, some "b", none, none, some 1, none, none, none⟩], []⟩

/-- The enriched candidates of `wDB` for the candidate list `[(1,1),(2,2)]`. -/
def wExp : List Expanded := [⟨1, 1, "a", 3, 30⟩, ⟨2, 2, "b", 1, 10⟩]

/-- The store of the end-to-end ranking example of the spec (§8): scores
50, 10, 5 and ages 100, 50, 10 for items 1, 2, 3, and the three titles. -/
def hnDB : DB :=
  ⟨[⟨1, some 100, some "Understanding the Rust borrow checker", none, none, some 50, none, none, none⟩,
    ⟨2, some 50, some "A Go tutorial", none, none, some 10, none, none, none⟩,
    ⟨3, some 10, some "Rust async patterns", none, none, some 5, none, none, none⟩], []⟩

/-- The enriched candidates of the end-to-end example, in provider order. -/
def hnExp : List Expanded :=
  [⟨1, 1/5, "Understanding the Rust borrow checker", 50, 100⟩,
   ⟨2, 1/10, "A Go tutorial", 10, 50⟩,
   ⟨3, 9/10, "Rust async patterns", 5, 10⟩]

instance : Std.Antisymm ((· : ℚ) ≤ ·) := ⟨fun h h' => le_antisymm h h'⟩

/-! ## Theorems -/

/-- Claim C2: the spec says an absent `kind` imposes no kind restriction.
The code applies `.filter(Item.type == item_type)` unconditionally, and
SQLAlchemy renders `Item.type == None` as `type IS NULL`: with `kind`
absent, `get_items` returns only items whose kind column is NULL, excluding
the stored `story` item entirely. -/
theorem c2_absent_kind_restricts_to_null_kind :
    get_items kindDB noFilter 0 10
      = [⟨2, none, none, none, none, none, none, none, none⟩] ∧
    (⟨1, none, none, none, none, none, some ItemType.story, none, none⟩ : Item)
      ∈ kindDB.items := by
  decide

/-- Claim C3: the spec requires an empty post-title-filter candidate set to
yield "no results" rather than a crash.  The code crashes there: with no
surviving candidate, `zip(*[])` unpacking raises `ValueError` (and a single
survivor makes `normalize` divide by zero), modelled as `none`; the claimed
behaviour would be `some []`. -/
theorem c3_empty_survivors_crash :
    compute_rankings titlelessDB "rust" [((1:ℤ), (1/2 : ℚ))] = none ∧
    compute_rankings titlelessDB "rust" [] = none := by
  constructor
  · rfl
  · rfl

/-- Claim C6: the limit actually applied by `get_items` never exceeds 50
(at most 50 rows come back, and an over-large request behaves exactly like
a request for 50), and an unspecified limit defaults to 10. -/
theorem c6_limit_clamped (db : DB) (p : ListingFilter) (skip : ℕ) (l l' : ℤ)
    (h : 50 < l') :
    (get_items db p skip l).length ≤ 50 ∧
    get_items db p skip l' = get_items db p skip 50 ∧
    get_items_nolimit db p skip = get_items db p skip 10 := by
  refine ⟨?_, ?_, rfl⟩
  · have hc : clampLimit l ≤ 50 := by unfold clampLimit MAX_NUM; split <;> omega
    have hn : (clampLimit l).toNat ≤ 50 := Int.toNat_le.mpr hc
    exact le_trans (List.length_take_le _ _) hn
  · have h1 : clampLimit l' = 50 := by unfold clampLimit MAX_NUM; split <;> omega
    have h2 : clampLimit 50 = 50 := by unfold clampLimit MAX_NUM; split <;> omega
    unfold get_items
    rw [h1, h2]

/-- Witness for C6 at a concrete store and an over-large requested limit. -/
theorem c6_witness :
    (get_items ⟨[], []⟩ noFilter 0 60).length ≤ 50 ∧
    get_items ⟨[], []⟩ noFilter 0 60 = get_items ⟨[], []⟩ noFilter 0 50 ∧
    get_items_nolimit ⟨[], []⟩ noFilter 0 = get_items ⟨[], []⟩ noFilter 0 10 :=
  c6_limit_clamped ⟨[], []⟩ noFilter 0 60 60 (by norm_num)

/-- Claim C9 as amended: for a requested limit of at most 50 (the clamp
bound), the `skip = k, limit = n` listing equals the first `n` items of the
skip-free, limit-free ordering starting at offset `k`; equivalently it can
be recovered from any larger clamped-window listing, offset applied before
limit. -/
theorem c9_offset_before_limit (db : DB) (p : ListingFilter) (k : ℕ) (n m : ℤ)
    (hn : n ≤ 50) (hm : m ≤ 50) (hkm : k + n.toNat ≤ m.toNat) :
    get_items db p k n = ((items_query db p).drop k).take n.toNat ∧
    get_items db p k n = ((get_items db p 0 m).drop k).take n.toNat := by
  have hcn : clampLimit n = n := by unfold clampLimit MAX_NUM; split <;> omega
  have hcm : clampLimit m = m := by unfold clampLimit MAX_NUM; split <;> omega
  have h1 : get_items db p k n = ((items_query db p).drop k).take n.toNat := by
    unfold get_items; rw [hcn]
  refine ⟨h1, ?_⟩
  unfold get_items
  rw [hcm, hcn, List.drop_zero, List.drop_take, List.take_take]
  congr 1
  omega

/-- Witness for C9 (amended) on the 51-item store. -/
theorem c9_witness :
    get_items manyDB noFilter 1 2 = ((items_query manyDB noFilter).drop 1).take (2:ℤ).toNat ∧
    get_items manyDB noFilter 1 2 = ((get_items manyDB noFilter 0 50).drop 1).take (2:ℤ).toNat :=
  c9_offset_before_limit manyDB noFilter 1 2 50 (by norm_num) (by norm_num) (by decide)

/-- Counterexample to claim C9 as stated: with `skip = 0, limit = 51` on a
store where 51 items match, the listing is the 50-item clamped window, not
the first 51 items of the unrestricted ordering. -/
theorem c9_counterexample :
    ¬ (get_items manyDB noFilter 0 51 = ((items_query manyDB noFilter).drop 0).take 51) := by
  decide

/-- Claim C10: in the enrichment loop of `semantic_search`, a ranked id
whose row is absent from the store is silently omitted (`if story_row:`),
shortening the result instead of raising. -/
theorem c10_store_miss_silently_dropped (db : DB) (ec : Bool)
    (pre post : List (ℚ × ℤ)) (e : ℚ × ℤ)
    (h : db.items.find? (fun i => i.id == e.2) = none) :
    fetch_stories db ec (pre ++ e :: post) = fetch_stories db ec (pre ++ post) ∧
    (fetch_stories db ec (pre ++ e :: post)).length < (pre ++ e :: post).length := by
  have heq : fetch_stories db ec (pre ++ e :: post) = fetch_stories db ec (pre ++ post) := by
    unfold fetch_stories
    simp only [List.filterMap_append, List.filterMap_cons, h, Option.map_none']
  refine ⟨heq, ?_⟩
  rw [heq]
  have hle : (fetch_stories db ec (pre ++ post)).length ≤ (pre ++ post).length :=
    List.length_filterMap_le _ _
  refine lt_of_le_of_lt hle ?_
  simp only [List.length_append, List.length_cons]
  omega

/-- Witness for C10: a ranked pair whose id has no row is dropped without
an error. -/
theorem c10_witness :
    fetch_stories ⟨[], []⟩ false ([] ++ ((1/2 : ℚ), (7:ℤ)) :: []) = fetch_stories ⟨[], []⟩ false ([] ++ []) ∧
    (fetch_stories ⟨[], []⟩ false ([] ++ ((1/2 : ℚ), (7:ℤ)) :: [])).length
      < ([] ++ ((1/2 : ℚ), (7:ℤ)) :: []).length :=
  c10_store_miss_silently_dropped ⟨[], []⟩ false [] [] ((1/2 : ℚ), (7:ℤ)) rfl

/-- Each loop iteration of `get_comments_text` appends exactly the fragment
list of the current comment. -/
theorem commentStep_eq (db : DB) (acc : List String) (c : Item) :
    commentStep db acc c = acc ++ commentFrag db c := by
  unfold commentStep commentFrag
  cases hc : c.text with
  | none => simp
  | some t =>
    by_cases ht : t = ""
    · simp [ht]
    · cases hh : (kidsOf db c.id 1).head? with
      | none => simp [ht]
      | some child =>
        cases hct : child.text with
        | none => simp [ht, hct]
        | some ct =>
          by_cases h2 : ct = ""
          · simp [ht, hct, h2]
          · simp [ht, hct, h2]

/-- The comment loop is the concatenation of the per-comment fragments. -/
theorem foldl_commentStep (db : DB) (l : List Item) (acc : List String) :
    l.foldl (commentStep db) acc = acc ++ l.flatMap (commentFrag db) := by
  induction l generalizing acc with
  | nil => simp
  | cons c cs ih =>
    rw [List.foldl_cons, commentStep_eq, ih, List.flatMap_cons, List.append_assoc]

/-- A single comment contributes at most two fragments (its own text and
its first child's). -/
theorem commentFrag_length_le (db : DB) (c : Item) : (commentFrag db c).length ≤ 2 := by
  unfold commentFrag
  cases hc : c.text with
  | none => simp
  | some t =>
    by_cases ht : t = ""
    · simp [ht]
    · cases hh : (kidsOf db c.id 1).head? with
      | none => simp [ht]
      | some child =>
        cases hct : child.text with
        | none => simp [ht, hct]
        | some ct =>
          by_cases h2 : ct = ""
          · simp [ht, hct, h2]
          · simp [ht, hct, h2]

/-- Fragment lists of at most 2 entries concatenate to at most twice the
comment count. -/
theorem flatMap_commentFrag_length (db : DB) (l : List Item) :
    (l.flatMap (commentFrag db)).length ≤ 2 * l.length := by
  induction l with
  | nil => simp
  | cons c cs ih =>
    rw [List.flatMap_cons, List.length_append, List.length_cons]
    have := commentFrag_length_le db c
    omega

/-- Claim C8: the comment preview holds at most 20 fragments and is exactly
the in-order interleaving of per-comment fragments (each parent text
followed by its first qualifying child text) over the at most 10 top-level
comments. -/
theorem c8_preview_bounded_interleaved (db : DB) (story_id : ℤ) :
    (get_comments_text db story_id).length ≤ 20 ∧
    get_comments_text db story_id = (kidsOf db story_id 10).flatMap (commentFrag db) ∧
    (kidsOf db story_id 10).length ≤ 10 := by
  have hflat : get_comments_text db story_id = (kidsOf db story_id 10).flatMap (commentFrag db) := by
    unfold get_comments_text
    simpa using foldl_commentStep db (kidsOf db story_id 10) []
  have hlen10 : (kidsOf db story_id 10).length ≤ 10 := List.length_take_le _ _
  refine ⟨?_, hflat, hlen10⟩
  rw [hflat]
  have := flatMap_commentFrag_length db (kidsOf db story_id 10)
  omega

/-- Applying `normalize` with `reverse=True` is the plain normalization with every
entry flipped to `1 - x` (utils.py lines 148-149). -/
theorem normalize_reverse (values : List ℚ) :
    normalize values true = (normalize values false).map (List.map fun x => 1 - x) := by
  unfold normalize
  cases values.min? with
  | none => cases values.max? <;> rfl
  | some mn =>
    cases values.max? with
    | none => rfl
    | some mx =>
      by_cases h : mx = mn
      · simp [h]
      · simp [h]

/-- A successful `normalize` returns one value per input. -/
theorem normalize_length (values nv : List ℚ) (r : Bool) (h : normalize values r = some nv) :
    nv.length = values.length := by
  unfold normalize at h
  rcases hmn : values.min? with _ | mn <;> rw [hmn] at h
  · rcases hmx : values.max? with _ | mx <;> rw [hmx] at h <;> simp at h
  · rcases hmx : values.max? with _ | mx <;> rw [hmx] at h
    · simp at h
    · by_cases he : mx = mn
      · subst he
        simp at h
      · cases r with
        | false =>
          simp [he] at h
          rw [← h]
          simp
        | true =>
          simp [he] at h
          rw [← h]
          simp

/-- Claim C4: a successful ranking run is sorted descending by fused score,
with exact ties broken by descending item id (`sorted(rankings,
reverse=True)` on `(score, id)` tuples); determinism is immediate because
the embedding is a function of its inputs. -/
theorem c4_sorted_desc_id_tiebreak (db : DB) (q : String) (res : List (ℤ × ℚ))
    (r : List (ℚ × ℤ)) (h : compute_rankings db q res = some r) :
    List.Pairwise (fun a b : ℚ × ℤ => b.1 ≤ a.1 ∧ (a.1 = b.1 → b.2 ≤ a.2)) r := by
  unfold compute_rankings at h
  rcases hexp : expandResults db res with _ | expanded <;> rw [hexp] at h
  · simp at h
  simp only [Option.bind_eq_bind, Option.some_bind, Option.pure_def] at h
  rcases hns : normalize (expanded.map fun e => (e.score : ℚ)) false with _ | ns <;>
    rw [hns] at h
  · simp at h
  simp only [Option.some_bind] at h
  rcases hna : normalize (expanded.map fun e => (e.age : ℚ)) false with _ | na <;>
    rw [hna] at h
  · simp at h
  simp only [Option.some_bind] at h
  rcases hnd : normalize (expanded.map fun e => e.distance) true with _ | nd <;>
    rw [hnd] at h
  · simp at h
  simp only [Option.some_bind, Option.some.injEq] at h
  rw [← h]
  have hs := List.sorted_insertionSort rankGe (fusedRankings q expanded ns nd na)
  exact hs.imp fun {a b} hab => by
    rcases hab with hlt | ⟨he, hle⟩
    · exact ⟨le_of_lt hlt, fun heq => absurd (heq ▸ hlt) (lt_irrefl _)⟩
    · exact ⟨le_of_eq he.symm, fun _ => hle⟩

/-- An empty query has an empty word set, so no keyword overlap. -/
theorem matchCount_empty (t : String) : matchCount "" t = 0 := rfl

/-- Enrichment of the witness store. -/
theorem wDB_expand : expandResults wDB [((1:ℤ), (1:ℚ)), (2, 2)] = some wExp := by decide

/-- Normalized score signal of the witness store. -/
theorem wExp_scores : normalize (wExp.map fun e => (e.score : ℚ)) false = some [1, 0] := by
  norm_num [wExp, normalize, List.min?, List.max?, List.foldl, min_def, max_def]

/-- Normalized age signal of the witness store. -/
theorem wExp_ages : normalize (wExp.map fun e => (e.age : ℚ)) false = some [1, 0] := by
  norm_num [wExp, normalize, List.min?, List.max?, List.foldl, min_def, max_def]

/-- Plain normalized distance signal of the witness store. -/
theorem wExp_dists_raw : normalize (wExp.map fun e => e.distance) false = some [0, 1] := by
  norm_num [wExp, normalize, List.min?, List.max?, List.foldl, min_def, max_def]

/-- Reversed normalized distance signal of the witness store. -/
theorem wExp_dists : normalize (wExp.map fun e => e.distance) true = some [1, 0] := by
  rw [normalize_reverse, wExp_dists_raw]
  norm_num

/-- Full ranking run on the witness store. -/
theorem wDB_rankings :
    compute_rankings wDB "" [((1:ℤ), (1:ℚ)), (2, 2)] = some [((9/10 : ℚ), (1:ℤ)), (0, 2)] := by
  unfold compute_rankings
  rw [wDB_expand]
  simp only [Option.bind_eq_bind, Option.some_bind, Option.pure_def]
  rw [wExp_scores]
  simp only [Option.some_bind]
  rw [wExp_ages]
  simp only [Option.some_bind]
  rw [wExp_dists]
  simp only [Option.some_bind, Option.some.injEq]
  norm_num [fusedRankings, wExp, matchCount_empty, List.enum, List.enumFrom,
    List.getD_cons_zero, List.getD_cons_succ, List.insertionSort, List.orderedInsert, rankGe]

/-- Witness for C4: the ranking on the witness store is sorted descending. -/
theorem c4_witness :
    List.Pairwise (fun a b : ℚ × ℤ => b.1 ≤ a.1 ∧ (a.1 = b.1 → b.2 ≤ a.2))
      [((9/10 : ℚ), (1:ℤ)), (0, 2)] :=
  c4_sorted_desc_id_tiebreak wDB "" [((1:ℤ), (1:ℚ)), (2, 2)] _ wDB_rankings

/-- Claim C5: on a successful run, the pre-sort fused score of the `i`-th
surviving candidate is `0.4·normScore + 0.4·(1 − normDistance) +
0.1·normAge + 0.1·overlapCount`, with the overlap count left as a raw
(unnormalized) word-set intersection size while the other three signals are
the min-max normalized vectors. -/
theorem c5_fused_score_formula (db : DB) (q : String) (res : List (ℤ × ℚ))
    (expanded : List Expanded) (ns nd na : List ℚ) (i : ℕ)
    (hexp : expandResults db res = some expanded)
    (hns : normalize (expanded.map fun e => (e.score : ℚ)) false = some ns)
    (hnd : normalize (expanded.map fun e => e.distance) false = some nd)
    (hna : normalize (expanded.map fun e => (e.age : ℚ)) false = some na)
    (hi : i < expanded.length) :
    compute_rankings db q res = some (List.insertionSort rankGe
      (fusedRankings q expanded ns (nd.map fun x => 1 - x) na)) ∧
    (fusedRankings q expanded ns (nd.map fun x => 1 - x) na).getD i (0, 0)
      = (0.4 * ns.getD i 0 + 0.4 * (1 - nd.getD i 0) + 0.1 * na.getD i 0
          + 0.1 * (matchCount q (expanded.getD i default).title : ℚ),
         (expanded.getD i default).sid) := by
  have hndt : normalize (expanded.map fun e => e.distance) true
      = some (nd.map fun x => 1 - x) := by
    rw [normalize_reverse, hnd]
    rfl
  constructor
  · unfold compute_rankings
    rw [hexp]
    simp only [Option.bind_eq_bind, Option.some_bind, Option.pure_def]
    rw [hns]
    simp only [Option.some_bind]
    rw [hna]
    simp only [Option.some_bind]
    rw [hndt]
    simp only [Option.some_bind]
  · have hndlen : nd.length = expanded.length := by
      have h := normalize_length _ _ _ hnd
      simpa using h
    have hienum : i < (expanded.enum.map (fun p =>
        (0.4 * ns.getD p.1 0 + 0.4 * ((nd.map fun x => 1 - x).getD p.1 0)
          + 0.1 * na.getD p.1 0 + 0.1 * (matchCount q p.2.title : ℚ), p.2.sid))).length := by
      simpa using hi
    have hmapd : (nd.map fun x => 1 - x).getD i 0 = 1 - nd.getD i 0 := by
      have hi' : i < nd.length := by
        rw [hndlen]
        exact hi
      rw [List.getD_eq_getElem?_getD, List.getD_eq_getElem?_getD, List.getElem?_map,
        List.getElem?_eq_getElem hi']
      rfl
    have hexpd : expanded.getD i default = expanded.get ⟨i, hi⟩ := by
      rw [List.getD_eq_getElem?_getD, List.getElem?_eq_getElem hi]
      rfl
    unfold fusedRankings
    rw [List.getD_eq_getElem?_getD, List.getElem?_eq_getElem hienum]
    simp only [List.getElem_map, List.getElem_enum, Option.getD_some]
    rw [hmapd, hexpd]
    rfl

/-- Witness for C5 on the witness store at candidate index 0. -/
theorem c5_witness :
    compute_rankings wDB "" [((1:ℤ), (1:ℚ)), (2, 2)] = some (List.insertionSort rankGe
      (fusedRankings "" wExp [1, 0] (([0, 1] : List ℚ).map fun x => 1 - x) [1, 0])) ∧
    (fusedRankings "" wExp [1, 0] (([0, 1] : List ℚ).map fun x => 1 - x) [1, 0]).getD 0 (0, 0)
      = (0.4 * ([1, 0] : List ℚ).getD 0 0 + 0.4 * (1 - ([0, 1] : List ℚ).getD 0 0)
          + 0.1 * ([1, 0] : List ℚ).getD 0 0 + 0.1 * (matchCount "" (wExp.getD 0 default).title : ℚ),
         (wExp.getD 0 default).sid) :=
  c5_fused_score_formula wDB "" [((1:ℤ), (1:ℚ)), (2, 2)] wExp [1, 0] [0, 1] [1, 0] 0
    wDB_expand wExp_scores wExp_dists_raw wExp_ages (by decide)

/-- Claim C7: when the signal vector holds at least two distinct values,
every normalized value lies in `[0,1]`, a position holding the minimum raw
value normalizes to `0`, and under the reversed (inverted-distance) mode it
maps to `1`. -/
theorem c7_normalize_bounds (values : List ℚ) (a b m v v' : ℚ) (i : ℕ)
    (nv nv' : List ℚ)
    (ha : a ∈ values) (hb : b ∈ values) (hab : a ≠ b)
    (hm : values.min? = some m)
    (hnv : normalize values false = some nv) (hnv' : normalize values true = some nv')
    (hv : v ∈ nv) (hv' : v' ∈ nv')
    (hi : i < values.length) (him : values.getD i 0 = m) :
    (0 ≤ v ∧ v ≤ 1) ∧ (0 ≤ v' ∧ v' ≤ 1) ∧ nv.getD i 0 = 0 ∧ nv'.getD i 0 = 1 := by
  obtain ⟨hmmem, hmle⟩ := (List.min?_eq_some_iff (fun x => le_refl x)
    (fun x y => min_choice x y) (fun x y z => le_min_iff)).mp hm
  unfold normalize at hnv hnv'
  rw [hm] at hnv hnv'
  rcases hmx : values.max? with _ | M <;> rw [hmx] at hnv hnv'
  · simp at hnv
  obtain ⟨hMmem, hMle⟩ := (List.max?_eq_some_iff (fun x => le_refl x)
    (fun x y => max_choice x y) (fun x y z => max_le_iff)).mp hmx
  by_cases hMm : M = m
  · exfalso
    apply hab
    have h1 : a ≤ M := hMle a ha
    have h2 : m ≤ a := hmle a ha
    have h3 : b ≤ M := hMle b hb
    have h4 : m ≤ b := hmle b hb
    rw [hMm] at h1 h3
    have hA : a = m := le_antisymm h1 h2
    have hB : b = m := le_antisymm h3 h4
    rw [hA, hB]
  · simp only [hMm, if_false, Bool.false_eq_true, if_true] at hnv hnv'
    have hmM : m < M := lt_of_le_of_ne (hmle M hMmem) (fun h => hMm h.symm)
    have hpos : (0:ℚ) < M - m := by linarith
    have hbounds : ∀ x ∈ values, 0 ≤ (x - m) / (M - m) ∧ (x - m) / (M - m) ≤ 1 := by
      intro x hx
      constructor
      · exact div_nonneg (by linarith [hmle x hx]) (le_of_lt hpos)
      · exact (div_le_one hpos).mpr (by linarith [hMle x hx])
    simp only [Option.some.injEq] at hnv hnv'
    have hvmem : ∀ u ∈ nv, ∃ x ∈ values, u = (x - m) / (M - m) := by
      intro u hu
      rw [← hnv] at hu
      obtain ⟨x, hx, hux⟩ := List.mem_map.mp hu
      exact ⟨x, hx, hux.symm⟩
    have hgetd : nv.getD i 0 = (values.getD i 0 - m) / (M - m) := by
      rw [← hnv, List.getD_eq_getElem?_getD, List.getElem?_map,
        List.getElem?_eq_getElem hi, List.getD_eq_getElem?_getD,
        List.getElem?_eq_getElem hi]
      rfl
    have hgetd' : nv'.getD i 0 = 1 - (values.getD i 0 - m) / (M - m) := by
      rw [← hnv', List.getD_eq_getElem?_getD, List.getElem?_map]
      have him2 : i < (values.map fun value => (value - m) / (M - m)).length := by
        simpa using hi
      rw [List.getElem?_eq_getElem him2]
      simp only [Option.map_some', Option.getD_some, List.getElem_map]
      rw [List.getD_eq_getElem?_getD, List.getElem?_eq_getElem hi]
      rfl
    refine ⟨?_, ?_, ?_, ?_⟩
    · obtain ⟨x, hx, rfl⟩ := hvmem v hv
      exact hbounds x hx
    · rw [← hnv'] at hv'
      obtain ⟨u, hu, huv⟩ := List.mem_map.mp hv'
      obtain ⟨x, hx, rfl⟩ := List.mem_map.mp hu
      obtain ⟨h0, h1⟩ := hbounds x hx
      constructor
      · rw [← huv]; linarith
      · rw [← huv]; linarith
    · rw [hgetd, him]
      simp
    · rw [hgetd', him]
      simp

/-- Witness for C7 on the vector `[3, 1]`. -/
theorem c7_witness :
    ((0:ℚ) ≤ 1 ∧ (1:ℚ) ≤ 1) ∧ ((0:ℚ) ≤ 0 ∧ (0:ℚ) ≤ 1) ∧
    ([(1:ℚ), 0] : List ℚ).getD 1 0 = 0 ∧ ([(0:ℚ), 1] : List ℚ).getD 1 0 = 1 :=
  c7_normalize_bounds [3, 1] 3 1 1 1 0 1 [1, 0] [0, 1]
    (by decide) (by decide) (by decide)
    (by norm_num [List.min?, List.foldl, min_def])
    (by norm_num [normalize, List.min?, List.max?, List.foldl, min_def, max_def])
    (by norm_num [normalize, List.min?, List.max?, List.foldl, min_def, max_def])
    (by decide) (by decide) (by decide) (by decide)

/-- Keyword overlap of the example query with the first title. -/
theorem hn_match1 :
    matchCount "rust borrow checker" "Understanding the Rust borrow checker" = 3 := by decide

/-- Keyword overlap of the example query with the second title. -/
theorem hn_match2 : matchCount "rust borrow checker" "A Go tutorial" = 0 := by decide

/-- Keyword overlap of the example query with the third title. -/
theorem hn_match3 : matchCount "rust borrow checker" "Rust async patterns" = 1 := by decide

/-- Enrichment of the end-to-end example candidates. -/
theorem hnDB_expand :
    expandResults hnDB [((1:ℤ), (1/5 : ℚ)), (2, 1/10), (3, 9/10)] = some hnExp := by
  simp [expandResults, fetchTSA, hnDB, hnExp, List.find?, Option.bind_eq_bind, Option.some_bind]

/-- Normalized score signal of the example: `[50, 10, 5]`. -/
theorem hn_scores : normalize (hnExp.map fun e => (e.score : ℚ)) false = some [1, 1/9, 0] := by
  norm_num [hnExp, normalize, List.min?, List.max?, List.foldl, min_def, max_def]

/-- Normalized age signal of the example: `[100, 50, 10]`. -/
theorem hn_ages : normalize (hnExp.map fun e => (e.age : ℚ)) false = some [1, 4/9, 0] := by
  norm_num [hnExp, normalize, List.min?, List.max?, List.foldl, min_def, max_def]

/-- Plain normalized distance signal of the example: `[1/5, 1/10, 9/10]`. -/
theorem hn_dists_raw : normalize (hnExp.map fun e => e.distance) false = some [1/8, 0, 1] := by
  norm_num [hnExp, normalize, List.min?, List.max?, List.foldl, min_def, max_def]

/-- Reversed normalized distance signal of the example. -/
theorem hn_dists : normalize (hnExp.map fun e => e.distance) true = some [7/8, 1, 0] := by
  rw [normalize_reverse, hn_dists_raw]
  norm_num

/-- Full ranking run of the end-to-end example: fused scores are
`1.15` for item 1, `22/45 ≈ 0.489` for item 2 and `0.1` for item 3. -/
theorem hnDB_rankings :
    compute_rankings hnDB "rust borrow checker" [((1:ℤ), (1/5 : ℚ)), (2, 1/10), (3, 9/10)]
      = some [((23/20 : ℚ), (1:ℤ)), (22/45, 2), (1/10, 3)] := by
  unfold compute_rankings
  rw [hnDB_expand]
  simp only [Option.bind_eq_bind, Option.some_bind, Option.pure_def]
  rw [hn_scores]
  simp only [Option.some_bind]
  rw [hn_ages]
  simp only [Option.some_bind]
  rw [hn_dists]
  simp only [Option.some_bind, Option.some.injEq]
  norm_num [fusedRankings, hnExp, hn_match1, hn_match2, hn_match3, List.enum, List.enumFrom,
    List.getD_cons_zero, List.getD_cons_succ, List.insertionSort, List.orderedInsert, rankGe]

/-- Counterexample to claim C1: on the spec's own end-to-end example the
pipeline does not produce the order 1, 3, 2.  Item 2 (distance 0.1, the
closest candidate, fused score 22/45) beats item 3 (distance 0.9, the
farthest, fused score 1/10); the spec's aside mistakes item 3 for the
closest candidate. -/
theorem c1_counterexample :
    ¬ ((compute_rankings hnDB "rust borrow checker"
        [((1:ℤ), (1/5 : ℚ)), (2, 1/10), (3, 9/10)]).map (fun l => l.map Prod.snd)
      = some [1, 3, 2]) := by
  rw [hnDB_rankings]
  simp

/-- Claim C1 as amended: on the end-to-end example the ranking pipeline
orders item 1 first, item 2 second and item 3 third. -/
theorem c1_rank_order :
    (compute_rankings hnDB "rust borrow checker"
        [((1:ℤ), (1/5 : ℚ)), (2, 1/10), (3, 9/10)]).map (fun l => l.map Prod.snd)
      = some [1, 2, 3] := by
  rw [hnDB_rankings]
  rfl

end HNPlugin
